import Mathlib

/-!
Shallow embedding of the thumbnail-cache subsystem of `spica-photo-viewer`
(`src/src-tauri/src/commands/cache.rs`, `src/src-tauri/src/commands/file.rs`,
`src/src-tauri/src/utils/image.rs`).

Machine integers (`u64`, `u32`) are modelled as `Nat` with explicit `% 2^64`
where overflow matters (release-build wrapping semantics of Rust `u64`
arithmetic).  Filesystem state is passed explicitly: the cache directory is a
list of files, each file carrying the outcome of reading it.  External crates
(`serde_json`, the `image` codecs, `base64`) are modelled at their interface:
`serde_json` round-tripping by a `Blob` datatype, codecs by oracle functions in
a `World` record, `base64` and the `image` crate's magic-byte table
(`image::guess_format`) implemented concretely.
-/

namespace Spica

/-! ### u64 arithmetic (wrapping, as in a Rust release build) -/

def M64 : Nat := 2 ^ 64

/-- Wrapping `u64` addition. -/
def wadd (a b : Nat) : Nat := (a + b) % M64

/-- `u64` xor (reduced mod `2^64` so results are always in range). -/
def wxor (a b : Nat) : Nat := (a ^^^ b) % M64

/-- Wrapping `u64` subtraction: `a.wrapping_sub b`. -/
def u64sub (a b : Nat) : Nat := (a + M64 - b % M64) % M64

/-- `u64::rotate_left`. -/
def rotl64 (a n : Nat) : Nat := ((a <<< n) ||| (a >>> (64 - n))) % M64

/-! ### SipHash-1-3, as used by Rust's `std::collections::hash_map::DefaultHasher`

`DefaultHasher::new()` is SipHash-1-3 with both keys zero.  `str::hash` feeds
the UTF-8 bytes followed by a `0xff` terminator byte; `u32::hash` feeds the
four native-endian bytes of the integer (little-endian on the supported
targets).  The byte stream below is exactly the concatenation of those
writes. -/

structure SipState where
  v0 : Nat
  v1 : Nat
  v2 : Nat
  v3 : Nat

/-- One SipHash compression round. -/
def sipRound (s : SipState) : SipState :=
  let v0 := wadd s.v0 s.v1
  let v1 := rotl64 s.v1 13
  let v1 := wxor v1 v0
  let v0 := rotl64 v0 32
  let v2 := wadd s.v2 s.v3
  let v3 := rotl64 s.v3 16
  let v3 := wxor v3 v2
  let v0 := wadd v0 v3
  let v3 := rotl64 v3 21
  let v3 := wxor v3 v0
  let v2 := wadd v2 v1
  let v1 := rotl64 v1 17
  let v1 := wxor v1 v2
  let v2 := rotl64 v2 32
  ⟨v0, v1, v2, v3⟩

/-- Absorb one message word (`c = 1` round for SipHash-1-3). -/
def sipAbsorb (s : SipState) (m : Nat) : SipState :=
  let s := { s with v3 := wxor s.v3 m }
  let s := sipRound s
  { s with v0 := wxor s.v0 m }

/-- Little-endian interpretation of a byte list. -/
def leWord : List Nat → Nat
  | [] => 0
  | b :: rest => b % 256 + 256 * leWord rest

/-- Absorb all full 8-byte words, returning the final state and the tail of
fewer than 8 leftover bytes. -/
def sipBlocks (s : SipState) : List Nat → SipState × List Nat
  | b0 :: b1 :: b2 :: b3 :: b4 :: b5 :: b6 :: b7 :: rest =>
      sipBlocks (sipAbsorb s (leWord [b0, b1, b2, b3, b4, b5, b6, b7])) rest
  | tail => (s, tail)

/-- SipHash-1-3 with key `(0, 0)` over a byte stream, as computed by
`DefaultHasher::finish`. -/
def siphash13 (msg : List Nat) : Nat :=
  let s0 : SipState :=
    ⟨0x736f6d6570736575, 0x646f72616e646f6d, 0x6c7967656e657261, 0x7465646279746573⟩
  let st := sipBlocks s0 msg
  let b := (((msg.length % 256) <<< 56) ||| leWord st.2) % M64
  let s := sipAbsorb st.1 b
  let s := { s with v2 := wxor s.v2 0xff }
  let s := sipRound (sipRound (sipRound s))
  wxor (wxor s.v0 s.v1) (wxor s.v2 s.v3)

/-- UTF-8 encoding of one character (codepoint to bytes). -/
def utf8Char (c : Char) : List Nat :=
  let n := c.toNat
  if n < 0x80 then [n]
  else if n < 0x800 then [0xC0 ||| (n >>> 6), 0x80 ||| (n &&& 0x3F)]
  else if n < 0x10000 then
    [0xE0 ||| (n >>> 12), 0x80 ||| ((n >>> 6) &&& 0x3F), 0x80 ||| (n &&& 0x3F)]
  else
    [0xF0 ||| (n >>> 18), 0x80 ||| ((n >>> 12) &&& 0x3F),
      0x80 ||| ((n >>> 6) &&& 0x3F), 0x80 ||| (n &&& 0x3F)]

/-- UTF-8 bytes of a string (`str::as_bytes`). -/
def utf8Bytes (s : String) : List Nat := (s.data.map utf8Char).flatten

/-- The four little-endian bytes of a `u32` (`Hasher::write_u32`). -/
def leBytes4 (n : Nat) : List Nat :=
  [n % 256, n / 256 % 256, n / 65536 % 256, n / 16777216 % 256]

/-- The byte stream `DefaultHasher` receives in `get_cache_key`:
`path.hash` writes the UTF-8 bytes plus a `0xff` terminator, `size.hash`
writes the little-endian bytes of the `u32`. -/
def cacheKeyStream (path : String) (size : Nat) : List Nat :=
  utf8Bytes path ++ [0xff] ++ leBytes4 size

/-- Lowercase-hex rendering of a `u64`, as `format!("\x7b:x\x7d", n)`. -/
def toHexLower (n : Nat) : String := String.mk (Nat.toDigits 16 n)

/-- `get_cache_key` from `commands/cache.rs`: hash the path and the size with
`DefaultHasher` and render `finish()` in lowercase hex. -/
def get_cache_key (path : String) (size : Nat) : String :=
  toHexLower (siphash13 (cacheKeyStream path size))

/-! ### Path helpers

`std::path::Path::file_name` / `Path::extension`, modelled over `/`-separated
paths (the common separator on the supported targets; the backslash case is
analogous and not needed by any claim). -/

/-- Split a character list at every occurrence of `c`. -/
def splitOnChar (c : Char) : List Char → List (List Char)
  | [] => [[]]
  | x :: xs =>
      let rest := splitOnChar c xs
      if x = c then [] :: rest
      else
        match rest with
        | [] => [[x]]
        | r :: rs => (x :: r) :: rs

/-- Final path component (`Path::file_name`). -/
def fileNameOf (path : String) : String :=
  ⟨(splitOnChar '/' path.data).getLastD path.data⟩

/-- Extension of the final path component (`Path::extension`): `none` when the
file name has no dot or is a dot-file such as `.gitignore`. -/
def extOf (path : String) : Option String :=
  match splitOnChar '.' (fileNameOf path).data with
  | [] => none
  | [_] => none
  | first :: rest =>
      if first = [] ∧ rest.length = 1 then none
      else some ⟨rest.getLastD []⟩

/-! ### Cache store model (`commands/cache.rs`)

A cache-directory file is one on-disk record.  `content` is the outcome of
`fs::read_to_string`: `Except.error` when the read fails, otherwise a `Blob`.
`Blob` abstracts the `serde_json` layer at its interface: `Blob.entry e` is a
string that parses back to `e` (`serde_json` round-trips `CacheEntry`
faithfully), `Blob.junk s` is readable content that fails to parse.
`removeOk` is whether `fs::remove_file` on this record succeeds. -/

structure CacheEntry where
  thumbnail : String
  created : Nat
deriving Repr, DecidableEq

/-- `CACHE_DURATION`: 24 hours in seconds. -/
def CACHE_DURATION : Nat := 24 * 60 * 60

inductive Blob where
  | entry (e : CacheEntry)
  | junk (s : String)
deriving Repr, DecidableEq

/-- `serde_json::from_str::<CacheEntry>` at the `Blob` interface. -/
def parseCacheEntry : Blob → Option CacheEntry
  | .entry e => some e
  | .junk _ => none

instance {ε α : Type} [DecidableEq ε] [DecidableEq α] : DecidableEq (Except ε α) :=
  fun a b =>
    match a, b with
    | .error e₁, .error e₂ =>
        if h : e₁ = e₂ then isTrue (by rw [h]) else isFalse (by simp [h])
    | .error _, .ok _ => isFalse (by simp)
    | .ok _, .error _ => isFalse (by simp)
    | .ok v₁, .ok v₂ =>
        if h : v₁ = v₂ then isTrue (by rw [h]) else isFalse (by simp [h])

structure CacheFile where
  name : String
  content : Except String Blob
  removeOk : Bool
deriving Repr, DecidableEq

/-- Look a file up by name in the cache directory (`cache_file.exists()` plus
the subsequent read). -/
def findFile (files : List CacheFile) (n : String) : Option CacheFile :=
  files.find? (fun f => f.name == n)

/-- Delete a file by name (`fs::remove_file`). -/
def removeFile (files : List CacheFile) (n : String) : List CacheFile :=
  files.filter (fun f => f.name != n)

/-- Entry-file name for a request: `format!("\x7b\x7d.json", cache_key)` with
the key derived from the path and the defaulted size (`size.unwrap_or(30)`). -/
def keyFileName (path : String) (size : Option Nat) : String :=
  get_cache_key path (size.getD 30) ++ ".json"

/-- `get_cached_thumbnail` from `commands/cache.rs`.  `resolve` is the outcome
of `get_cache_dir()`; `files` the cache directory contents; `now` the clock
(`SystemTime::now` in seconds).  Returns the command result together with the
cache directory after the call. -/
def get_cached_thumbnail (resolve : Except String Unit) (files : List CacheFile)
    (now : Nat) (path : String) (size : Option Nat) :
    Except String (Option String) × List CacheFile :=
  match resolve with
  | .error e => (.error e, files)
  | .ok () =>
      let cacheFileName := keyFileName path size
      match findFile files cacheFileName with
      | none => (.ok none, files)
      | some f =>
          match f.content with
          | .error e => (.error ("Failed to read cache file: " ++ e), files)
          | .ok blob =>
              match parseCacheEntry blob with
              | none => (.error "Failed to parse cache entry", files)
              | some entry =>
                  if u64sub now entry.created > CACHE_DURATION then
                    -- expired: `let _ = fs::remove_file(&cache_file);`
                    (.ok none, if f.removeOk then removeFile files cacheFileName else files)
                  else
                    (.ok (some entry.thumbnail), files)

/-- `set_cached_thumbnail` from `commands/cache.rs`.  The entry is stamped with
the store clock `now`; the command takes no caller timestamp.  `writeOk` is
whether `fs::write` succeeds; a successful write replaces any previous file of
the same name wholesale. -/
def set_cached_thumbnail (resolve : Except String Unit) (files : List CacheFile)
    (now : Nat) (path : String) (thumbnail : String) (size : Option Nat)
    (writeOk : Bool) : Except String Unit × List CacheFile :=
  match resolve with
  | .error e => (.error e, files)
  | .ok () =>
      let cacheFileName := keyFileName path size
      -- `serde_json::to_string` on a `CacheEntry` cannot fail
      if writeOk then
        (.ok (),
          removeFile files cacheFileName ++
            [⟨cacheFileName, .ok (.entry ⟨thumbnail, now⟩), true⟩])
      else
        (.error "Failed to write cache file", files)

/-- Per-file step of `clear_old_cache`'s loop body: returns the file if it
survives, and the increment to `removed_count`.  Readable content that fails
to parse falls through the `if let Ok(cache_entry)` with no action; a failed
read takes the `Err(_)` branch, which removes the file (ignoring the removal
result) and counts it unconditionally. -/
def sweepFile (now : Nat) (f : CacheFile) : Option CacheFile × Nat :=
  if extOf f.name == some "json" then
    match f.content with
    | .ok blob =>
        match parseCacheEntry blob with
        | some entry =>
            if u64sub now entry.created > CACHE_DURATION then
              if f.removeOk then (none, 1) else (some f, 0)
            else (some f, 0)
        | none => (some f, 0)
    | .error _ => (if f.removeOk then none else some f, 1)
  else (some f, 0)

/-- Directory items as yielded by `fs::read_dir`: each item is itself a
`Result` (`Err` when fetching the directory entry fails). -/
abbrev DirItem := Except String CacheFile

/-- The `for entry in entries` loop of `clear_old_cache`: a failing directory
item aborts with `Err` (the `?` on line 148); surviving files are kept in
order. -/
def sweepItems (now : Nat) : List DirItem → Except String Nat × List DirItem
  | [] => (.ok 0, [])
  | .error e :: rest => (.error ("Failed to read directory entry: " ++ e), .error e :: rest)
  | .ok f :: rest =>
      let step := sweepFile now f
      let keptHere : List DirItem :=
        match step.1 with
        | some g => [.ok g]
        | none => []
      match sweepItems now rest with
      | (.error e, rest') => (.error e, keptHere ++ rest')
      | (.ok c, rest') => (.ok (step.2 + c), keptHere ++ rest')

/-- `clear_old_cache` from `commands/cache.rs`.  A failed `get_cache_dir` or a
missing directory is "nothing to clean" (`Ok`); a failing `fs::read_dir` on an
existing directory propagates as `Err`.  The returned `Nat` is the
`removed_count` the function accumulates (and prints); its Rust return value
is `Ok(())`. -/
def clear_old_cache (resolve : Except String Unit) (dirExists : Bool)
    (readDirOk : Bool) (items : List DirItem) (now : Nat) :
    Except String Nat × List DirItem :=
  match resolve with
  | .error _ => (.ok 0, items)
  | .ok () =>
      if !dirExists then (.ok 0, items)
      else if !readDirOk then (.error "Failed to read cache directory", items)
      else sweepItems now items

/-- Counting loop of `get_cache_stats`: failing directory items are skipped
(`if let Ok(entry)`), `.json` files count toward `total_files`, and those that
read, parse and are within the expiry window count toward `valid_files`. -/
def statsCount (now : Nat) : List DirItem → Nat × Nat
  | [] => (0, 0)
  | .error _ :: rest => statsCount now rest
  | .ok f :: rest =>
      let acc := statsCount now rest
      if extOf f.name == some "json" then
        let valid : Bool :=
          match f.content with
          | .ok blob =>
              match parseCacheEntry blob with
              | some entry => u64sub now entry.created ≤ CACHE_DURATION
              | none => false
          | .error _ => false
        (acc.1 + 1, if valid then acc.2 + 1 else acc.2)
      else acc

/-- `get_cache_stats` from `commands/cache.rs`, with the returned `HashMap`
modelled as its association list.  A failed `get_cache_dir` or missing
directory yields the empty map. -/
def get_cache_stats (resolve : Except String Unit) (dirExists : Bool)
    (readDirOk : Bool) (items : List DirItem) (now : Nat) :
    Except String (List (String × Nat)) :=
  match resolve with
  | .error _ => .ok []
  | .ok () =>
      if !dirExists then .ok []
      else if !readDirOk then .error "Failed to read cache directory"
      else
        let c := statsCount now items
        .ok [("total_files", c.1), ("valid_files", c.2)]

/-! ### Format detection (`utils/image.rs`, `image::guess_format`) -/

/-- `ImageFormat` as used by `get_image_format`. -/
inductive ImageFormat where
  | Jpeg | Png | WebP | Gif
deriving Repr, DecidableEq

/-- ASCII lowering of one character (`str::to_lowercase` restricted to the
ASCII range, which is all the extension comparisons ever see). -/
def asciiLower (c : Char) : Char :=
  if 'A' ≤ c ∧ c ≤ 'Z' then Char.ofNat (c.toNat + 32) else c

/-- ASCII `to_lowercase` on a string. -/
def lowerStr (s : String) : String := ⟨s.data.map asciiLower⟩

/-- `is_supported_image`: case-insensitive extension membership in the closed
set.  Operates purely on the path, before any I/O. -/
def is_supported_image (path : String) : Bool :=
  match extOf path with
  | some ext => ["jpg", "jpeg", "png", "webp", "gif"].contains (lowerStr ext)
  | none => false

/-- `get_image_format`: extension-based format classification. -/
def get_image_format (path : String) : Option ImageFormat :=
  match extOf path with
  | some ext =>
      match lowerStr ext with
      | "jpg" => some .Jpeg
      | "jpeg" => some .Jpeg
      | "png" => some .Png
      | "webp" => some .WebP
      | "gif" => some .Gif
      | _ => none
  | none => none

/-- Formats recognizable by the `image` crate's magic-byte sniffing. -/
inductive GuessedFormat where
  | Png | Jpeg | Gif | WebP | Tiff | Bmp | Ico | Hdr | OpenExr | Pnm | Farbfeld | Qoi
deriving Repr, DecidableEq

/-- Byte-list prefix test. -/
def bytesStartWith : List Nat → List Nat → Bool
  | [], _ => true
  | _ :: _, [] => false
  | m :: ms, b :: bs => m == b % 256 && bytesStartWith ms bs

/-- The `image` crate's magic-byte table, as consulted by
`image::guess_format` (first matching prefix wins). -/
def magicTable : List (List Nat × GuessedFormat) :=
  [([0x89, 0x50, 0x4E, 0x47, 0x0D, 0x0A, 0x1A, 0x0A], .Png),
   ([0xFF, 0xD8, 0xFF], .Jpeg),
   ([0x47, 0x49, 0x46, 0x38, 0x39, 0x61], .Gif),  -- GIF89a
   ([0x47, 0x49, 0x46, 0x38, 0x37, 0x61], .Gif),  -- GIF87a
   ([0x52, 0x49, 0x46, 0x46], .WebP),             -- RIFF container
   ([0x4D, 0x4D, 0x00, 0x2A], .Tiff),
   ([0x49, 0x49, 0x2A, 0x00], .Tiff),
   ([0x42, 0x4D], .Bmp),
   ([0x00, 0x00, 0x01, 0x00], .Ico),
   ([0x23, 0x3F, 0x52, 0x41, 0x44, 0x49, 0x41, 0x4E, 0x43, 0x45], .Hdr),
   ([0x76, 0x2F, 0x31, 0x01], .OpenExr),
   ([0x50, 0x31], .Pnm), ([0x50, 0x32], .Pnm), ([0x50, 0x33], .Pnm),
   ([0x50, 0x34], .Pnm), ([0x50, 0x35], .Pnm), ([0x50, 0x36], .Pnm),
   ([0x50, 0x37], .Pnm),
   ([0x66, 0x61, 0x72, 0x62, 0x66, 0x65, 0x6C, 0x64], .Farbfeld),
   ([0x71, 0x6F, 0x69, 0x66], .Qoi)]

/-- `image::guess_format`: magic-number inference over a byte buffer,
independent of any file extension. -/
def guessFormat (buf : List Nat) : Option GuessedFormat :=
  (magicTable.find? (fun m => bytesStartWith m.1 buf)).map (·.2)

/-! ### Source files and the codec oracle

A source image file with the outcomes of the filesystem calls made on it.
`decoded` is the interface to the `image` crate's decoder (`image::open`):
`some bitmap` when the bytes decode (to the single representative frame for
animated sources), `none` when decoding fails.  The codecs themselves are
external to this repository. -/

structure Bitmap where
  width : Nat
  height : Nat
deriving Repr, DecidableEq

structure SrcFile where
  name : String
  fileExists : Bool
  isFile : Bool
  content : List Nat
  readOk : Bool
  metadataOk : Bool
  fsize : Nat
  modified : Nat
  decoded : Option Bitmap
deriving Repr, DecidableEq

/-- Encoder/resizer oracles for the `image` crate operations whose output
bytes are opaque to this subsystem. -/
structure World where
  thumbnailOf : Bitmap → Nat → Bitmap
  encodeFmt : ImageFormat → Bitmap → List Nat

/-! ### base64 (`base64::engine::general_purpose::STANDARD`) -/

def b64Digit (n : Nat) : Char :=
  "ABCDEFGHIJKLMNOPQRSTUVWXYZabcdefghijklmnopqrstuvwxyz0123456789+/".data.getD n 'A'

/-- RFC 4648 standard base64 with padding. -/
def base64Chars : List Nat → List Char
  | [] => []
  | [b1] =>
      let x := (b1 % 256) * 65536
      [b64Digit (x / 262144), b64Digit (x / 4096 % 64), '=', '=']
  | [b1, b2] =>
      let x := (b1 % 256) * 65536 + (b2 % 256) * 256
      [b64Digit (x / 262144), b64Digit (x / 4096 % 64), b64Digit (x / 64 % 64), '=']
  | b1 :: b2 :: b3 :: rest =>
      let x := (b1 % 256) * 65536 + (b2 % 256) * 256 + b3 % 256
      b64Digit (x / 262144) :: b64Digit (x / 4096 % 64) :: b64Digit (x / 64 % 64) ::
        b64Digit (x % 64) :: base64Chars rest

def base64Encode (bytes : List Nat) : String := ⟨base64Chars bytes⟩

/-! ### Image pipeline (`utils/image.rs`)

Each pipeline function returns its result paired with a `Bool` recording
whether `image::open` (the decoder) was invoked during the call. -/

/-- `load_image_as_base64`: GIF-extension files are passed through as their
original bytes (no decode); everything else is decoded and re-encoded in the
extension-derived format (JPEG fallback). -/
def load_image_as_base64 (w : World) (f : SrcFile) : Except String String × Bool :=
  match extOf f.name with
  | some ext =>
      if lowerStr ext = "gif" then
        if f.readOk then (.ok (base64Encode f.content), false)
        else (.error "IoError", false)
      else loadViaPipeline w f
  | none => loadViaPipeline w f
where
  /-- The non-GIF branch: `image::open`, then `write_to` in the
  extension-derived format, then base64. -/
  loadViaPipeline (w : World) (f : SrcFile) : Except String String × Bool :=
    if !f.readOk then (.error "IoError", true)
    else
      match f.decoded with
      | none => (.error "DecodeError", true)
      | some img =>
          let format := (get_image_format f.name).getD .Jpeg
          (.ok (base64Encode (w.encodeFmt format img)), true)

/-- `generate_thumbnail`: decode, `thumbnail(size, size)`, JPEG-encode,
base64 — for every format, GIF included. -/
def generate_thumbnail (w : World) (f : SrcFile) (size : Nat) :
    Except String String × Bool :=
  if !f.readOk then (.error "IoError", true)
  else
    match f.decoded with
    | none => (.error "DecodeError", true)
    | some img =>
        let thumbnail := w.thumbnailOf img size
        (.ok (base64Encode (w.encodeFmt .Jpeg thumbnail)), true)

/-! ### Commands over files (`commands/file.rs`) -/

/-- `generate_image_thumbnail`: existence and extension checks, then straight
into `generate_thumbnail` — there is no header-validation step on this path. -/
def generate_image_thumbnail (w : World) (f : SrcFile) (size : Option Nat) :
    Except String String × Bool :=
  if !(f.fileExists && f.isFile) then (.error "File not found", false)
  else if !(is_supported_image f.name) then (.error "Unsupported file format", false)
  else
    let thumbnail_size := size.getD 30
    match generate_thumbnail w f thumbnail_size with
    | (.error e, inv) => (.error ("Failed to generate thumbnail: " ++ e), inv)
    | (.ok s, inv) => (.ok s, inv)

/-- `validate_image_header`: open the file, read up to 16 bytes into a
zeroed buffer, and require `image::guess_format` to recognize the prefix. -/
def validate_image_header (f : SrcFile) : Except String Unit :=
  if !f.readOk then .error "Failed to open image file"
  else
    let buffer := f.content.take 16 ++ List.replicate (16 - (f.content.take 16).length) 0
    match guessFormat buffer with
    | some _ => .ok ()
    | none => .error "Failed to detect valid image format"

structure ImageInfo where
  path : String
  filename : String
  size : Nat
  modified : Nat
  format : String
deriving Repr, DecidableEq

/-- `get_image_info`: metadata, name/format fields, then the header check;
only a file that passes `validate_image_header` yields an `ImageInfo`. -/
def get_image_info (f : SrcFile) : Except String ImageInfo :=
  if !f.metadataOk then .error "Failed to read file metadata"
  else
    let filename := fileNameOf f.name
    let format := lowerStr ((extOf f.name).getD "unknown")
    match validate_image_header f with
    | .error e => .error e
    | .ok () => .ok ⟨f.name, filename, f.fsize, f.modified, format⟩

/-- Lexicographic strict order on character lists (the order of Rust's
`str::cmp`: UTF-8 byte order coincides with codepoint order). -/
def charListLt : List Char → List Char → Bool
  | [], [] => false
  | [], _ :: _ => true
  | _ :: _, [] => false
  | a :: as, b :: bs => if a < b then true else if b < a then false else charListLt as bs

def strLt (a b : String) : Bool := charListLt a.data b.data

/-- Stable insertion by filename, modelling
`images.sort_by(|a, b| a.filename.cmp(&b.filename))`. -/
def insertByName (x : ImageInfo) : List ImageInfo → List ImageInfo
  | [] => [x]
  | y :: ys =>
      if strLt x.filename y.filename then x :: y :: ys
      else y :: insertByName x ys

def sortByFilename : List ImageInfo → List ImageInfo
  | [] => []
  | x :: xs => insertByName x (sortByFilename xs)

structure Folder where
  folderExists : Bool
  isDir : Bool
  entries : List SrcFile

/-- `get_folder_images`: reject missing/non-directory paths, keep regular
files with supported extensions, silently skip those whose `get_image_info`
fails, and sort the survivors by filename. -/
def get_folder_images (folder : Folder) : Except String (List ImageInfo) :=
  if !(folder.folderExists && folder.isDir) then .error "Invalid folder path"
  else
    .ok (sortByFilename
      (((folder.entries.filter (fun f => f.isFile && is_supported_image f.name)).filterMap
        (fun f => (get_image_info f).toOption))))

/-! ### Observable characterizations of the sweep (spec side)

These predicates restate, per file, which cache-directory files
`clear_old_cache` actually deletes and which it counts; the sweep theorems
relate the code to them. -/

/-- A file the sweep deletes: a `.json` file whose read fails (and whose
deletion succeeds), or one that parses to an entry past the expiry window
(and whose deletion succeeds). -/
def removedPred (now : Nat) (f : CacheFile) : Bool :=
  extOf f.name == some "json" &&
    match f.content with
    | .ok blob =>
        match parseCacheEntry blob with
        | some e => decide (u64sub now e.created > CACHE_DURATION) && f.removeOk
        | none => false
    | .error _ => f.removeOk

/-- A file the sweep counts in `removed_count`: as `removedPred`, except that
an unreadable file is counted even when its deletion fails. -/
def countedPred (now : Nat) (f : CacheFile) : Bool :=
  extOf f.name == some "json" &&
    match f.content with
    | .ok blob =>
        match parseCacheEntry blob with
        | some e => decide (u64sub now e.created > CACHE_DURATION) && f.removeOk
        | none => false
    | .error _ => true

/-! ### Concrete fixtures used by counterexamples and witnesses -/

/-- Entry-file name for the request `("/photo.jpg", 30)`. -/
def entryName : String := keyFileName "/photo.jpg" (some 30)

/-- A cache directory holding one readable-but-unparsable record under the
key for `("/a.jpg", 30)`. -/
def c1Store : List CacheFile :=
  [⟨keyFileName "/a.jpg" (some 30), .ok (.junk "not json"), true⟩]

/-- A cache directory holding one record dated in the far future
(`created = 2^64 - 1`). -/
def c10Store : List CacheFile := [⟨entryName, .ok (.entry ⟨"t", M64 - 1⟩), true⟩]

/-- A readable `.json` file whose content fails to parse as a `CacheEntry`. -/
def junkItem : CacheFile := ⟨"deadbeef.json", .ok (.junk "corrupt"), true⟩

/-- Trivial codec oracle for concrete evaluations. -/
def w0 : World := ⟨fun b _ => b, fun _ _ => [1, 2]⟩

/-- A file named `photo.jpg` whose bytes are not a recognized image format
and do not decode. -/
def corruptNamedJpg : SrcFile := ⟨"photo.jpg", true, true, [0, 1, 2, 3], true, true, 4, 0, none⟩

/-- A well-formed JPEG file (JPEG magic, decodes). -/
def fJpegOk : SrcFile :=
  ⟨"/pics/a.jpg", true, true, [0xFF, 0xD8, 0xFF, 0xE0, 0, 0, 1, 2], true, true, 100, 10,
    some ⟨4000, 3000⟩⟩

/-- A well-formed PNG file (PNG magic, decodes). -/
def fPngOk : SrcFile :=
  ⟨"/pics/b.png", true, true, [0x89, 0x50, 0x4E, 0x47, 0x0D, 0x0A, 0x1A, 0x0A], true, true,
    50, 20, some ⟨1, 1⟩⟩

/-- A corrupted file carrying a supported image extension. -/
def fCorrupt : SrcFile := ⟨"/pics/c.jpg", true, true, [1, 2, 3], true, true, 17, 30, none⟩

/-- The `ImageInfo` for `fJpegOk`. -/
def infoA : ImageInfo := ⟨"/pics/a.jpg", "a.jpg", 100, 10, "jpg"⟩

/-- The `ImageInfo` for `fPngOk`. -/
def infoB : ImageInfo := ⟨"/pics/b.png", "b.png", 50, 20, "png"⟩

/-- A small animated-source file with GIF extension. -/
def gifFile : SrcFile := ⟨"/x/anim.gif", true, true, [1, 2, 3, 4], true, true, 4, 0, some ⟨2, 2⟩⟩

/-- The expired-by-one cache directory for the boundary claim. -/
def boundaryStore (created : Nat) (thumb : String) : List CacheFile :=
  [⟨entryName, .ok (.entry ⟨thumb, created⟩), true⟩]

/-! ## Lemmas -/

theorem wxor_lt (a b : Nat) : wxor a b < M64 := Nat.mod_lt _ (by norm_num [M64])

theorem siphash13_lt (msg : List Nat) : siphash13 msg < M64 := by
  unfold siphash13
  exact wxor_lt _ _

/-- On in-range, non-underflowing inputs the wrapping subtraction is plain
subtraction. -/
theorem u64sub_of_le {a b : Nat} (hba : b ≤ a) (ha : a < M64) :
    u64sub a b = a - b := by
  unfold u64sub
  have hb : b % M64 = b := Nat.mod_eq_of_lt (lt_of_le_of_lt hba ha)
  rw [hb]
  have h1 : a + M64 - b = M64 + (a - b) := by omega
  rw [h1, Nat.add_mod_left]
  exact Nat.mod_eq_of_lt (by omega)

/-- When the subtraction underflows, the wrapped result is `2^64 - (b - a)`. -/
theorem u64sub_wrap {a b : Nat} (hab : a < b) (hb : b < M64) :
    u64sub a b = M64 - (b - a) := by
  unfold u64sub
  have hbm : b % M64 = b := Nat.mod_eq_of_lt hb
  rw [hbm]
  have h1 : a + M64 - b = M64 - (b - a) := by omega
  rw [h1]
  exact Nat.mod_eq_of_lt (by omega)

/-- Per-file behavior of the sweep loop body matches the two predicates. -/
theorem sweepFile_eq (now : Nat) (f : CacheFile) :
    sweepFile now f =
      ((if removedPred now f then none else some f),
        (if countedPred now f then 1 else 0)) := by
  cases hx : (extOf f.name == some "json") with
  | false => simp [sweepFile, removedPred, countedPred, hx]
  | true =>
      cases hc : f.content with
      | error e =>
          cases hr : f.removeOk <;>
            simp [sweepFile, removedPred, countedPred, hx, hc, hr]
      | ok blob =>
          cases hp : parseCacheEntry blob with
          | none => simp [sweepFile, removedPred, countedPred, hx, hc, hp]
          | some e =>
              by_cases hd : u64sub now e.created > CACHE_DURATION
              · cases hr : f.removeOk <;>
                  simp [sweepFile, removedPred, countedPred, hx, hc, hp, hd, hr]
              · simp [sweepFile, removedPred, countedPred, hx, hc, hp, hd]

/-- On a directory whose items all read, the sweep loop returns the count of
`countedPred` files and keeps exactly the files not matched by
`removedPred`. -/
theorem sweepItems_ok_spec (now : Nat) (files : List CacheFile) :
    sweepItems now (files.map .ok) =
      (.ok (files.countP (fun f => countedPred now f)),
        (files.filter (fun f => !removedPred now f)).map .ok) := by
  induction files with
  | nil => simp [sweepItems]
  | cons f rest ih =>
      simp only [List.map_cons, sweepItems, ih, sweepFile_eq, List.countP_cons,
        List.filter_cons]
      cases hr : removedPred now f <;> cases hc : countedPred now f <;>
        simp [hr, hc, Nat.add_comm]

/-- Membership in an insertion step. -/
theorem mem_insertByName {a x : ImageInfo} {l : List ImageInfo} :
    a ∈ insertByName x l ↔ a = x ∨ a ∈ l := by
  induction l with
  | nil => simp [insertByName]
  | cons y ys ih =>
      unfold insertByName
      cases h : strLt x.filename y.filename
      · simp [h, ih]
        tauto
      · simp [h]

/-- Sorting by filename permutes, hence preserves, membership. -/
theorem mem_sortByFilename {a : ImageInfo} {l : List ImageInfo} :
    a ∈ sortByFilename l ↔ a ∈ l := by
  induction l with
  | nil => simp [sortByFilename]
  | cons x xs ih => simp [sortByFilename, mem_insertByName, ih]

/-- `get_image_info` only succeeds on files that pass header validation. -/
theorem get_image_info_validates {f : SrcFile} {info : ImageInfo}
    (h : get_image_info f = .ok info) : validate_image_header f = .ok () := by
  unfold get_image_info at h
  by_cases hm : f.metadataOk
  · simp only [hm] at h
    cases hv : validate_image_header f with
    | error e => rw [hv] at h; simp at h
    | ok u => cases u; rfl
  · simp [hm] at h

/-- After removal of name `n`, lookup of `n` in the left part fails, so the
appended fresh file is found. -/
theorem findFile_removeFile_append {files : List CacheFile} {n : String}
    {x : CacheFile} (hx : x.name = n) :
    findFile (removeFile files n ++ [x]) n = some x := by
  induction files with
  | nil => simp [findFile, removeFile, List.find?, hx]
  | cons f rest ih =>
      unfold removeFile at ih ⊢
      by_cases h : f.name = n
      · simp [List.filter_cons, h, ih]
      · simp only [List.filter_cons]
        have hne : (f.name != n) = true := by simp [bne_iff_ne, h]
        simp only [hne, if_pos, List.cons_append]
        unfold findFile
        simp only [List.find?]
        have : (f.name == n) = false := by simp [h]
        rw [this]
        exact ih

/-- Lookup of any other name is untouched by remove-then-append. -/
theorem findFile_removeFile_append_ne {files : List CacheFile} {n m : String}
    {x : CacheFile} (hx : x.name = n) (hm : m ≠ n) :
    findFile (removeFile files n ++ [x]) m = findFile files m := by
  induction files with
  | nil =>
      simp only [removeFile, List.filter_nil, List.nil_append]
      unfold findFile
      simp only [List.find?]
      have : (x.name == m) = false := by simp [hx]; exact fun h => hm h.symm
      rw [this]
  | cons f rest ih =>
      unfold removeFile at ih ⊢
      simp only [List.filter_cons]
      by_cases h : f.name = n
      · have hne : (f.name != n) = false := by simp [h]
        rw [hne]
        simp only [if_neg Bool.false_ne_true]
        rw [ih]
        unfold findFile
        simp only [List.find?]
        have : (f.name == m) = false := by
          simp [h]; exact fun hc => hm hc.symm
        rw [this]
      · have hne : (f.name != n) = true := by simp [bne_iff_ne, h]
        rw [hne]
        simp only [if_pos, List.cons_append]
        unfold findFile
        simp only [List.find?]
        cases hfm : (f.name == m) with
        | true => rfl
        | false => exact ih

/-! ## Claim theorems -/

/-- C1: the claim as stated is false on the code: on a readable entry file
whose content does not parse, `get_cached_thumbnail` surfaces an error to the
caller and leaves the corrupt record in place, instead of deleting it and
returning `None`. -/
theorem corrupt_entry_surfaces_error_and_is_kept :
    (get_cached_thumbnail (.ok ()) c1Store 1000 "/a.jpg" (some 30)).1
        = .error "Failed to parse cache entry" ∧
      (get_cached_thumbnail (.ok ()) c1Store 1000 "/a.jpg" (some 30)).2 = c1Store := by
  constructor <;> decide

/-- C1 (amended): `get_cached_thumbnail` returns `Ok(None)` when no entry file
exists, but an entry file that exists and reads yet fails to parse yields an
`Err` to the caller with the record left undeleted. -/
theorem get_cached_thumbnail_absent_and_corrupt (files : List CacheFile) (now : Nat)
    (path : String) (size : Option Nat) :
    (findFile files (keyFileName path size) = none →
      get_cached_thumbnail (.ok ()) files now path size = (.ok none, files)) ∧
    (∀ f s, findFile files (keyFileName path size) = some f →
      f.content = .ok (.junk s) →
      get_cached_thumbnail (.ok ()) files now path size
        = (.error "Failed to parse cache entry", files)) := by
  constructor
  · intro h
    simp only [get_cached_thumbnail, h]
  · intro f s hf hc
    simp only [get_cached_thumbnail, hf, hc, parseCacheEntry]

/-- C1 witness: both branches at concrete stores. -/
theorem get_cached_thumbnail_absent_and_corrupt_witness :
    get_cached_thumbnail (.ok ()) [] 1000 "/a.jpg" (some 30) = (.ok none, []) ∧
    get_cached_thumbnail (.ok ()) c1Store 1000 "/a.jpg" (some 30)
      = (.error "Failed to parse cache entry", c1Store) :=
  ⟨(get_cached_thumbnail_absent_and_corrupt [] 1000 "/a.jpg" (some 30)).1 (by decide),
   (get_cached_thumbnail_absent_and_corrupt c1Store 1000 "/a.jpg" (some 30)).2
      ⟨keyFileName "/a.jpg" (some 30), .ok (.junk "not json"), true⟩ "not json"
      (by decide) (by decide)⟩

/-- C2: the claim is false on the code: a file named `photo.jpg` whose bytes
fail header validation is nevertheless handed to the decoder by
`generate_image_thumbnail` — the flag records that `image::open` was
invoked. -/
theorem thumbnail_command_invokes_decoder_despite_bad_header :
    validate_image_header corruptNamedJpg = .error "Failed to detect valid image format" ∧
      (generate_image_thumbnail w0 corruptNamedJpg (some 30)).2 = true := by
  constructor <;> decide

/-- C2 (amended): `generate_image_thumbnail` gates only on extension; a
supported-extension file whose bytes fail to decode — even one header
validation would reject — reaches the decoder and is rejected there with a
decode error. -/
theorem generate_image_thumbnail_decoder_rejects (w : World) (f : SrcFile)
    (size : Option Nat) (h1 : f.fileExists = true) (h2 : f.isFile = true)
    (h3 : is_supported_image f.name = true) (h4 : f.readOk = true)
    (h5 : f.decoded = none)
    (_h6 : validate_image_header f = .error "Failed to detect valid image format") :
    generate_image_thumbnail w f size
      = (.error "Failed to generate thumbnail: DecodeError", true) := by
  unfold generate_image_thumbnail generate_thumbnail
  simp [h1, h2, h3, h4, h5]

/-- C2 witness: the concrete corrupt `photo.jpg`. -/
theorem generate_image_thumbnail_decoder_rejects_witness :
    generate_image_thumbnail w0 corruptNamedJpg (some 30)
      = (.error "Failed to generate thumbnail: DecodeError", true) :=
  generate_image_thumbnail_decoder_rejects w0 corruptNamedJpg (some 30)
    (by decide) (by decide) (by decide) (by decide) (by decide) (by decide)

/-- C3: the claim is false on the code: a readable `.json` entry whose content
cannot be parsed is neither removed nor counted by `clear_old_cache` — the
sweep returns zero and leaves the junk record in place (and its Rust return
value carries no count at all). -/
theorem sweep_keeps_readable_junk :
    clear_old_cache (.ok ()) true true [.ok junkItem] 1000
      = (.ok 0, [.ok junkItem]) := by
  decide

/-- C3 (amended): on a readable directory, the sweep removes exactly the
`.json` files whose read fails (when deletion succeeds) and the parsable ones
past the expiry window (when deletion succeeds); readable-but-unparsable
entries and non-`.json` files are left untouched.  The count it accumulates
(printed, not returned) is the number of unreadable `.json` files plus the
expired ones successfully deleted. -/
theorem clear_old_cache_spec (files : List CacheFile) (now : Nat) :
    clear_old_cache (.ok ()) true true (files.map .ok) now
      = (.ok (files.countP (fun f => countedPred now f)),
          (files.filter (fun f => !removedPred now f)).map .ok) := by
  unfold clear_old_cache
  simp [sweepItems_ok_spec]

/-- C5: the claim is false on the code: when the cache directory exists but
enumerating it fails (`fs::read_dir` error), `clear_old_cache` fails the
caller instead of reporting zero removals and success. -/
theorem sweep_fails_on_unreadable_directory :
    clear_old_cache (.ok ()) true false [] 1000
      = (.error "Failed to read cache directory", []) := by
  decide

/-- C5 (amended): the sweep treats a failed cache-directory resolution and a
missing directory as "nothing to clean" (zero removed, success), and
unreadable individual entry files never abort it — on a directory whose items
all fetch, the result is always `Ok`, with unreadable files counted; but a
directory that exists and cannot be enumerated yields an error. -/
theorem clear_old_cache_tolerance (e : String) (items : List DirItem)
    (files : List CacheFile) (now : Nat) :
    clear_old_cache (.error e) true true items now = (.ok 0, items) ∧
    clear_old_cache (.ok ()) false true items now = (.ok 0, items) ∧
    (clear_old_cache (.ok ()) true true (files.map .ok) now).1
      = .ok (files.countP (fun f => countedPred now f)) := by
  refine ⟨rfl, rfl, ?_⟩
  unfold clear_old_cache
  simp [sweepItems_ok_spec]

/-- C5 witness: the tolerance at concrete states, including a directory whose
single entry file is unreadable (swept over and counted, not an error). -/
theorem clear_old_cache_tolerance_witness :
    clear_old_cache (.error "no APPDATA") true true [.ok junkItem] 1000
        = (.ok 0, [.ok junkItem]) ∧
      clear_old_cache (.ok ()) false true [.ok junkItem] 1000
        = (.ok 0, [.ok junkItem]) ∧
      (clear_old_cache (.ok ()) true true
          ([CacheFile.mk "bad.json" (.error "eio") true].map Except.ok) 1000).1
        = .ok 1 := by
  refine ⟨(clear_old_cache_tolerance "no APPDATA" [.ok junkItem] [] 1000).1,
    (clear_old_cache_tolerance "x" [.ok junkItem] [] 1000).2.1, ?_⟩
  rw [(clear_old_cache_tolerance "x" [] [CacheFile.mk "bad.json" (.error "eio") true] 1000).2.2]
  decide

/-- C4: expiry boundary.  An entry one second past the window is treated as
absent by `get_cached_thumbnail` (and deleted) and removed and counted by
`clear_old_cache`; an entry one second inside the window is returned by the
lookup and left in place by the sweep. -/
theorem expiry_boundary (now : Nat) (thumb : String)
    (h1 : CACHE_DURATION + 1 ≤ now) (h2 : now < M64) :
    get_cached_thumbnail (.ok ()) (boundaryStore (now - CACHE_DURATION - 1) thumb) now
        "/photo.jpg" (some 30) = (.ok none, []) ∧
    clear_old_cache (.ok ()) true true
        ((boundaryStore (now - CACHE_DURATION - 1) thumb).map .ok) now = (.ok 1, []) ∧
    get_cached_thumbnail (.ok ()) (boundaryStore (now - CACHE_DURATION + 1) thumb) now
        "/photo.jpg" (some 30)
      = (.ok (some thumb), boundaryStore (now - CACHE_DURATION + 1) thumb) ∧
    clear_old_cache (.ok ()) true true
        ((boundaryStore (now - CACHE_DURATION + 1) thumb).map .ok) now
      = (.ok 0, (boundaryStore (now - CACHE_DURATION + 1) thumb).map .ok) := by
  have hd : CACHE_DURATION = 86400 := by norm_num [CACHE_DURATION]
  have e1 : u64sub now (now - CACHE_DURATION - 1) = now - (now - CACHE_DURATION - 1) :=
    u64sub_of_le (by omega) h2
  have e2 : u64sub now (now - CACHE_DURATION + 1) = now - (now - CACHE_DURATION + 1) :=
    u64sub_of_le (by omega) h2
  have hexp : u64sub now (now - CACHE_DURATION - 1) > CACHE_DURATION := by
    rw [e1]
    omega
  have hfresh : ¬ (u64sub now (now - CACHE_DURATION + 1) > CACHE_DURATION) := by
    rw [e2]
    omega
  have hext : (extOf entryName == some "json") = true := by decide
  have hname : keyFileName "/photo.jpg" (some 30) = entryName := rfl
  have hfind : ∀ c, findFile (boundaryStore c thumb) entryName
      = some ⟨entryName, .ok (.entry ⟨thumb, c⟩), true⟩ := by
    intro c
    simp [findFile, boundaryStore, List.find?]
  refine ⟨?_, ?_, ?_, ?_⟩
  · simp only [get_cached_thumbnail, hname, hfind, parseCacheEntry]
    rw [if_pos hexp]
    simp [removeFile, boundaryStore]
  · simp only [clear_old_cache, Bool.not_true, sweepItems_ok_spec, boundaryStore]
    simp [countedPred, removedPred, parseCacheEntry, hext, hexp]
  · simp only [get_cached_thumbnail, hname, hfind, parseCacheEntry]
    rw [if_neg hfresh]
  · simp only [clear_old_cache, Bool.not_true, sweepItems_ok_spec, boundaryStore]
    simp [countedPred, removedPred, parseCacheEntry, hext, hfresh]

/-- C4 witness: the boundary at `now = 172800` (two expiry windows). -/
theorem expiry_boundary_witness :
    get_cached_thumbnail (.ok ()) (boundaryStore (172800 - CACHE_DURATION - 1) "t") 172800
        "/photo.jpg" (some 30) = (.ok none, []) ∧
    clear_old_cache (.ok ()) true true
        ((boundaryStore (172800 - CACHE_DURATION - 1) "t").map .ok) 172800 = (.ok 1, []) ∧
    get_cached_thumbnail (.ok ()) (boundaryStore (172800 - CACHE_DURATION + 1) "t") 172800
        "/photo.jpg" (some 30)
      = (.ok (some "t"), boundaryStore (172800 - CACHE_DURATION + 1) "t") ∧
    clear_old_cache (.ok ()) true true
        ((boundaryStore (172800 - CACHE_DURATION + 1) "t").map .ok) 172800
      = (.ok 0, (boundaryStore (172800 - CACHE_DURATION + 1) "t").map .ok) :=
  expiry_boundary 172800 "t" (by decide) (by decide)

/-- C6: every `ImageInfo` produced by `get_folder_images` comes from a folder
entry that passed `validate_image_header`, and the mixed folder of two valid
images and one corrupted `.jpg` yields exactly the two valid entries. -/
theorem folder_images_header_validated :
    (∀ (folder : Folder) (infos : List ImageInfo) (info : ImageInfo),
        get_folder_images folder = .ok infos → info ∈ infos →
        ∃ f, f ∈ folder.entries ∧ validate_image_header f = .ok () ∧
          get_image_info f = .ok info) ∧
      get_folder_images ⟨true, true, [fJpegOk, fCorrupt, fPngOk]⟩ = .ok [infoA, infoB] := by
  constructor
  · intro folder infos info hok hmem
    unfold get_folder_images at hok
    cases hcond : (folder.folderExists && folder.isDir) with
    | false => simp [hcond] at hok
    | true =>
        simp only [hcond, Bool.not_true, Bool.false_eq_true, if_false, Except.ok.injEq] at hok
        subst hok
        rw [mem_sortByFilename, List.mem_filterMap] at hmem
        obtain ⟨f, hf, hsome⟩ := hmem
        rw [List.mem_filter] at hf
        have hok2 : get_image_info f = .ok info := by
          cases hgi : get_image_info f with
          | error e => rw [hgi] at hsome; simp [Except.toOption] at hsome
          | ok v =>
              rw [hgi] at hsome
              simp only [Except.toOption, Option.some.injEq] at hsome
              rw [hsome]
        exact ⟨f, hf.1, get_image_info_validates hok2, hok2⟩
  · decide

/-- C6 witness: the first returned descriptor of the mixed folder indeed stems
from a header-validated entry. -/
theorem folder_images_header_validated_witness :
    ∃ f, f ∈ (Folder.mk true true [fJpegOk, fCorrupt, fPngOk]).entries ∧
      validate_image_header f = .ok () ∧ get_image_info f = .ok infoA :=
  folder_images_header_validated.1 ⟨true, true, [fJpegOk, fCorrupt, fPngOk]⟩
    [infoA, infoB] infoA (by decide) (by decide)

/-- C7: the claim as stated is false: `get_cache_key` ranges over 64-bit hash
values, so over the infinitely many paths two distinct paths must collide at
any fixed size — universal path-injectivity cannot hold for this derivation. -/
theorem cache_key_not_universally_injective :
    ¬ (∀ (s : Nat) (a b : String), a ≠ b → get_cache_key a s ≠ get_cache_key b s) := by
  intro h
  have hinj : Function.Injective
      (fun a : String => (⟨siphash13 (cacheKeyStream a 30), siphash13_lt _⟩ : Fin M64)) := by
    intro a b hab
    have hsip : siphash13 (cacheKeyStream a 30) = siphash13 (cacheKeyStream b 30) :=
      congrArg Fin.val hab
    by_contra hne
    exact h 30 a b hne (by unfold get_cache_key; rw [hsip])
  obtain ⟨x, y, hxy, hfeq⟩ := Finite.exists_ne_map_eq_of_infinite
    (fun a : String => (⟨siphash13 (cacheKeyStream a 30), siphash13_lt _⟩ : Fin M64))
  exact hxy (hinj hfeq)

/-- C7 (amended): the derivation is a deterministic pure function and
separates the specification's concrete examples — the same path at sizes 30
and 50, and distinct paths at size 30, receive distinct keys; universal
injectivity over all paths is unattainable for a 64-bit hash. -/
theorem cache_key_separates_examples :
    get_cache_key "/a.jpg" 30 ≠ get_cache_key "/a.jpg" 50 ∧
      get_cache_key "/a.jpg" 30 ≠ get_cache_key "/b.jpg" 30 := by
  constructor <;> decide

/-- C8: a successful `set_cached_thumbnail` stores under the derived key an
entry stamped with the store clock `now` (the command accepts no caller
timestamp), wholly replacing any previous entry of that key and touching no
other key. -/
theorem put_stamps_now_and_overwrites (files : List CacheFile) (now : Nat)
    (path thumbnail : String) (size : Option Nat) :
    (set_cached_thumbnail (.ok ()) files now path thumbnail size true).1 = .ok () ∧
    findFile (set_cached_thumbnail (.ok ()) files now path thumbnail size true).2
        (keyFileName path size)
      = some ⟨keyFileName path size, .ok (.entry ⟨thumbnail, now⟩), true⟩ ∧
    (∀ n, n ≠ keyFileName path size →
      findFile (set_cached_thumbnail (.ok ()) files now path thumbnail size true).2 n
        = findFile files n) := by
  refine ⟨rfl, ?_, ?_⟩
  · show findFile (removeFile files (keyFileName path size) ++
        [⟨keyFileName path size, .ok (.entry ⟨thumbnail, now⟩), true⟩]) (keyFileName path size)
      = some ⟨keyFileName path size, .ok (.entry ⟨thumbnail, now⟩), true⟩
    exact findFile_removeFile_append rfl
  · intro n hn
    show findFile (removeFile files (keyFileName path size) ++
        [⟨keyFileName path size, .ok (.entry ⟨thumbnail, now⟩), true⟩]) n = findFile files n
    exact findFile_removeFile_append_ne rfl hn

/-- C8 witness: overwriting a pre-existing entry of the same key stamps the
new clock and leaves an unrelated name alone. -/
theorem put_stamps_now_and_overwrites_witness :
    ((set_cached_thumbnail (.ok ())
        [⟨keyFileName "/a.jpg" (some 30), .ok (.entry ⟨"old", 5⟩), true⟩]
        123 "/a.jpg" "new" (some 30) true).1 = .ok ()) ∧
    findFile (set_cached_thumbnail (.ok ())
        [⟨keyFileName "/a.jpg" (some 30), .ok (.entry ⟨"old", 5⟩), true⟩]
        123 "/a.jpg" "new" (some 30) true).2 (keyFileName "/a.jpg" (some 30))
      = some ⟨keyFileName "/a.jpg" (some 30), .ok (.entry ⟨"new", 123⟩), true⟩ ∧
    findFile (set_cached_thumbnail (.ok ())
        [⟨keyFileName "/a.jpg" (some 30), .ok (.entry ⟨"old", 5⟩), true⟩]
        123 "/a.jpg" "new" (some 30) true).2 "other"
      = findFile [⟨keyFileName "/a.jpg" (some 30), .ok (.entry ⟨"old", 5⟩), true⟩] "other" :=
  ⟨(put_stamps_now_and_overwrites
      [⟨keyFileName "/a.jpg" (some 30), .ok (.entry ⟨"old", 5⟩), true⟩]
      123 "/a.jpg" "new" (some 30)).1,
   (put_stamps_now_and_overwrites
      [⟨keyFileName "/a.jpg" (some 30), .ok (.entry ⟨"old", 5⟩), true⟩]
      123 "/a.jpg" "new" (some 30)).2.1,
   (put_stamps_now_and_overwrites
      [⟨keyFileName "/a.jpg" (some 30), .ok (.entry ⟨"old", 5⟩), true⟩]
      123 "/a.jpg" "new" (some 30)).2.2 "other" (by decide)⟩

/-- C9: a GIF-extension source is passed through by `load_image_as_base64` as
the base64 of its original bytes with the decoder never invoked, while
`generate_thumbnail` on the same source decodes its representative frame,
resizes it and re-encodes it as JPEG. -/
theorem gif_passthrough_and_thumbnail (w : World) (f : SrcFile) (size : Nat)
    (ext : String) (img : Bitmap)
    (h1 : extOf f.name = some ext) (h2 : lowerStr ext = "gif")
    (h3 : f.readOk = true) (h4 : f.decoded = some img) :
    load_image_as_base64 w f = (.ok (base64Encode f.content), false) ∧
      generate_thumbnail w f size
        = (.ok (base64Encode (w.encodeFmt .Jpeg (w.thumbnailOf img size))), true) := by
  constructor
  · unfold load_image_as_base64
    rw [h1]
    simp [h2, h3]
  · unfold generate_thumbnail
    simp [h3, h4]

/-- C9 witness: the concrete animated source. -/
theorem gif_passthrough_and_thumbnail_witness :
    load_image_as_base64 w0 gifFile = (.ok (base64Encode gifFile.content), false) ∧
      generate_thumbnail w0 gifFile 30
        = (.ok (base64Encode (w0.encodeFmt .Jpeg (w0.thumbnailOf ⟨2, 2⟩ 30))), true) :=
  gif_passthrough_and_thumbnail w0 gifFile 30 "gif" ⟨2, 2⟩
    (by decide) (by decide) (by decide) (by decide)

/-- C10: the claim as stated is false at the wrap-around corner: with
`now = 0` and `created = 2^64 - 1` the wrapped age is `1`, inside the expiry
window, so the future-dated entry is served as fresh, not deleted. -/
theorem future_dated_entry_served_fresh :
    get_cached_thumbnail (.ok ()) c10Store 0 "/photo.jpg" (some 30)
      = (.ok (some "t"), c10Store) := by
  decide

/-- C10 (amended): for a future-dated entry whose lead over the clock is less
than `2^64 - CACHE_DURATION`, the wrapped age `now - created` exceeds the
window, so the lookup deletes it and reports absent, the sweep removes and
counts it, and the stats count it as total-but-not-valid. -/
theorem future_dated_entry_expired (now created : Nat) (thumb : String)
    (h1 : now < created) (h2 : created < M64)
    (h3 : created - now < M64 - CACHE_DURATION) :
    u64sub now created > CACHE_DURATION ∧
    get_cached_thumbnail (.ok ()) (boundaryStore created thumb) now "/photo.jpg" (some 30)
      = (.ok none, []) ∧
    clear_old_cache (.ok ()) true true ((boundaryStore created thumb).map .ok) now
      = (.ok 1, []) ∧
    get_cache_stats (.ok ()) true true ((boundaryStore created thumb).map .ok) now
      = .ok [("total_files", 1), ("valid_files", 0)] := by
  have hexp : u64sub now created > CACHE_DURATION := by
    rw [u64sub_wrap h1 h2]
    have hd : CACHE_DURATION = 86400 := by norm_num [CACHE_DURATION]
    have hm : M64 = 18446744073709551616 := by norm_num [M64]
    omega
  have hext : (extOf entryName == some "json") = true := by decide
  have hname : keyFileName "/photo.jpg" (some 30) = entryName := rfl
  have hfind : findFile (boundaryStore created thumb) entryName
      = some ⟨entryName, .ok (.entry ⟨thumb, created⟩), true⟩ := by
    simp [findFile, boundaryStore, List.find?]
  refine ⟨hexp, ?_, ?_, ?_⟩
  · simp only [get_cached_thumbnail, hname, hfind, parseCacheEntry]
    rw [if_pos hexp]
    simp [removeFile, boundaryStore]
  · simp only [clear_old_cache, Bool.not_true, sweepItems_ok_spec, boundaryStore]
    simp [countedPred, removedPred, parseCacheEntry, hext, hexp]
  · simp only [get_cache_stats, Bool.not_true, statsCount, boundaryStore, List.map_cons,
      List.map_nil]
    simp [parseCacheEntry, hext, Nat.not_le.mpr hexp]

/-- C10 witness: a concrete future-dated entry (`now = 1000`,
`created = 2000`). -/
theorem future_dated_entry_expired_witness :
    u64sub 1000 2000 > CACHE_DURATION ∧
    get_cached_thumbnail (.ok ()) (boundaryStore 2000 "t") 1000 "/photo.jpg" (some 30)
      = (.ok none, []) ∧
    clear_old_cache (.ok ()) true true ((boundaryStore 2000 "t").map .ok) 1000
      = (.ok 1, []) ∧
    get_cache_stats (.ok ()) true true ((boundaryStore 2000 "t").map .ok) 1000
      = .ok [("total_files", 1), ("valid_files", 0)] :=
  future_dated_entry_expired 1000 2000 "t" (by decide) (by decide) (by decide)

end Spica
